import Mathlib

/-!
Shallow embedding of `src/elephant.py` (the elephant document store):
JSON values, Python-dict operations, the `Record` and `Collection`
operations, the S3 bucket / Elasticsearch state, and the `seed` command.

Python `dict`s of JSON-compatible values are modelled as association
lists `List (String × JVal)`; Python `None` is modelled by `JVal.null`
(its JSON serialization). Wall-clock time (`epoch()`) is modelled by
passing the current value in milliseconds as an explicit argument.
-/

/-- A JSON-compatible Python value (the payload values of a Record). -/
inductive JVal where
  | null
  | bool (b : Bool)
  | num (n : Int)
  | str (s : String)
  | arr (xs : List JVal)
  | obj (fields : List (String × JVal))

/-- A Python dict with string keys and JSON-compatible values,
as an association list (first binding wins on lookup; real dicts
never hold a key twice, and none of our operations introduces one). -/
abbrev Dict := List (String × JVal)

namespace Dict

/-- Python `d[k]` as an optional lookup (`d.get(k)`). -/
def lookup (d : Dict) (k : String) : Option JVal :=
  List.lookup k d

/-- Python `k in d`. -/
def hasKey (d : Dict) (k : String) : Bool :=
  d.any (fun p => p.1 = k)

/-- Python `d[k] = v` (also one keyword of `d.update(...)`): replace the
binding in place when the key is present, append it otherwise. -/
def set (d : Dict) (k : String) (v : JVal) : Dict :=
  if d.hasKey k then
    d.map (fun p => if p.1 = k then (k, v) else p)
  else
    d ++ [(k, v)]

/-- Python `d.pop(k, None)`: the removed value (if any) and the remaining dict. -/
def pop (d : Dict) (k : String) : Option JVal × Dict :=
  (d.lookup k, d.filter (fun p => p.1 ≠ k))

end Dict

/-- Python string formatting of a value (`'{}'.format(v)`), as used in
key construction. Every identifier the program ever formats is a string
(`str(uuid4())` at creation, the string key segment on load), and a
collection name is a string or `None`; the remaining branches give the
closest rendering and are never reached by the code paths modelled here. -/
def JVal.pyStr : JVal → String
  | .null => "None"
  | .bool true => "True"
  | .bool false => "False"
  | .num n => toString n
  | .str s => s
  | .arr _ => "[...]"
  | .obj _ => "{...}"

/-- Python string formatting of an optional string (`collection_name`
is initialised to `None`). -/
def pyStrOfOpt : Option String → String
  | some s => s
  | none => "None"

/-- `Record.__init__` state (`src/elephant.py` lines 112-116): `uuid` is
`str(uuid4())` at creation but, after `_from_uuid`, whatever JSON value
was stored (possibly null); likewise `epoch`. -/
structure Record where
  uuid : JVal
  data : Dict
  epoch : JVal
  collection_name : Option String

/-- `Record()` with a freshly generated identifier `u` and current time
`t` in milliseconds (the generation of `u` and the clock are modelled as
arguments). -/
def Record.create (u : String) (t : Int) : Record :=
  { uuid := .str u, data := [], epoch := .num t, collection_name := none }

/-- `Record.dict` (lines 149-153): a copy of the payload updated with
the reserved `uuid` and `epoch` keys. -/
def Record.dict (r : Record) : Dict :=
  ((r.data).set "uuid" r.uuid).set "epoch" r.epoch

/-- `Record.json` (lines 155-157): `json.dumps({'record': self.dict})`,
modelled at the level of the parsed JSON value (serialization to text
and `json.loads` are inverse standard-library steps). -/
def Record.json (r : Record) : JVal :=
  .obj [("record", .obj r.dict)]

/-- The S3 key used by `_persist` and `delete`:
`'{0}/{1}'.format(self.collection_name, self.uuid)` (line 140). -/
def Record.persistKey (r : Record) : String :=
  pyStrOfOpt r.collection_name ++ "/" ++ r.uuid.pyStr

/-- The combined external state: the S3 bucket (key to parsed JSON
document), the Elasticsearch documents (index name, document id,
document), and the set of created Elasticsearch indexes. -/
structure Store where
  bucket : List (String × JVal)
  esDocs : List (String × String × Dict)
  esIndexes : List String

/-- `key.set_contents_from_string` at a bucket key: overwrite. -/
def bucketPut (b : List (String × JVal)) (k : String) (v : JVal) : List (String × JVal) :=
  (k, v) :: b.filter (fun p => p.1 ≠ k)

/-- `BUCKET.get_key(k)` then `.read()`: `None` when the key is absent. -/
def bucketGet (b : List (String × JVal)) (k : String) : Option JVal :=
  List.lookup k b

/-- `BUCKET.delete_key(k)` (idempotent). -/
def bucketDeleteKey (b : List (String × JVal)) (k : String) : List (String × JVal) :=
  b.filter (fun p => p.1 ≠ k)

/-- `ES.index(idx, 'record', doc, id=i)`: upsert of the document at
`(idx, i)`. -/
def esPutDoc (docs : List (String × String × Dict)) (idx i : String) (doc : Dict) :
    List (String × String × Dict) :=
  (idx, i, doc) :: docs.filter (fun p => ¬(p.1 = idx ∧ p.2.1 = i))

/-- The document stored at `(idx, i)`, if any. -/
def esGetDoc (docs : List (String × String × Dict)) (idx i : String) : Option Dict :=
  (docs.find? (fun p => p.1 = idx ∧ p.2.1 = i)).map (fun p => p.2.2)

/-- `ES.delete(index=idx, doc_type='record', id=i)` (success path). -/
def esDeleteDoc (docs : List (String × String × Dict)) (idx i : String) :
    List (String × String × Dict) :=
  docs.filter (fun p => ¬(p.1 = idx ∧ p.2.1 = i))

/-- `Record._persist` (lines 138-142): write `self.json` to S3 at
`'{0}/{1}'.format(self.collection_name, self.uuid)` with JSON
content type. -/
def Record.persist (r : Record) (s : Store) : Store :=
  { s with bucket := bucketPut s.bucket r.persistKey r.json }

/-- `Record._index` (lines 144-147): `ES.index(self.collection.name,
'record', self.dict, id=self.uuid)` (the `collection` property is
`Collection(name=self.collection_name)`, so the index name is the
collection name). -/
def Record.indexES (r : Record) (s : Store) : Store :=
  { s with esDocs := esPutDoc s.esDocs (pyStrOfOpt r.collection_name) r.uuid.pyStr r.dict }

/-- A remote-store operation issued by the program, in program order. -/
inductive Op where
  | blobPut (key : String) (content : JVal)
  | esIndexDoc (idx : String) (id : String) (doc : Dict)
  | blobDelete (key : String)
  | esDeleteOne (idx : String) (id : String)

/-- The effect of one successful operation on the external state. -/
def applyOp (s : Store) : Op → Store
  | .blobPut k v => { s with bucket := bucketPut s.bucket k v }
  | .esIndexDoc idx i doc => { s with esDocs := esPutDoc s.esDocs idx i doc }
  | .blobDelete k => { s with bucket := bucketDeleteKey s.bucket k }
  | .esDeleteOne idx i => { s with esDocs := esDeleteDoc s.esDocs idx i }

/-- Run a sequence of operations under a failure oracle `fails`
(modelling a remote store raising an exception on that call). Python
exception semantics: execution stops at the first failing operation.
Returns the final state, the operations that were actually performed,
and whether the whole sequence succeeded. -/
def runOps (fails : Op → Bool) : Store → List Op → Store × List Op × Bool
  | s, [] => (s, [], true)
  | s, op :: rest =>
    if fails op then (s, [], false)
    else
      let (s', done, ok) := runOps fails (applyOp s op) rest
      (s', op :: done, ok)

/-- `Record.save` with `self.epoch = epoch()` already applied: the
record value after line 129. -/
def Record.refreshed (r : Record) (now : Int) : Record :=
  { r with epoch := .num now }

/-- The remote operations issued by `Record.save` (lines 128-132):
first `_persist` (the S3 write), then `_index` (the Elasticsearch
write), both on the record with its timestamp refreshed to `now`. -/
def Record.saveOps (r : Record) (now : Int) : List Op :=
  let r' := r.refreshed now
  [ .blobPut r'.persistKey r'.json,
    .esIndexDoc (pyStrOfOpt r'.collection_name) r'.uuid.pyStr r'.dict ]

/-- `Record.save` on the success path: the updated record and state. -/
def Record.save (r : Record) (now : Int) (s : Store) : Record × Store :=
  (r.refreshed now, (r.saveOps now).foldl applyOp s)

/-- `Record.delete` (lines 134-136): remove the document from
Elasticsearch, then remove the S3 key. -/
def Record.delete (r : Record) (s : Store) : Store :=
  let s1 := { s with esDocs := esDeleteDoc s.esDocs (pyStrOfOpt r.collection_name) r.uuid.pyStr }
  { s1 with bucket := bucketDeleteKey s1.bucket r.persistKey }

/-- How `_from_uuid` can fail: `notFound` when `BUCKET.get_key` returns
`None` for an absent key (so `key.read()` raises); `badDocument` for a
stored document that is not of the form `{"record": {...}}` (the
`['record']` subscript or `j.pop` raises). -/
inductive FetchErr where
  | notFound
  | badDocument
deriving DecidableEq

/-- The reserved-key stripping step of `_from_uuid` (lines 173-179):
build a Record from the unwrapped document `j`, popping `uuid` and
`epoch` (defaulting to `None`) and keeping the rest as the payload. -/
def Record.ofEnvelope (coll : String) (j : Dict) : Record :=
  let (u, j1) := j.pop "uuid"
  let (e, j2) := j1.pop "epoch"
  { uuid := u.getD .null, epoch := e.getD .null, data := j2,
    collection_name := some coll }

/-- The characters of a string before the first `/`. -/
def takeUntilSlash : List Char → List Char
  | [] => []
  | c :: cs => if c = '/' then [] else c :: takeUntilSlash cs

/-- `k.split('/')[0]`: the collection-name prefix of a bucket key (the
whole string when it contains no `/`), used by `_from_uuid` (line 168)
and by `seed` (line 189). -/
def collectionOfKey (k : String) : String :=
  ⟨takeUntilSlash k.toList⟩

/-- The key/collection resolution of `_from_uuid` (lines 164-168).
Line 165 is `if collection:` — a Python truthiness test, so `None` and
the empty string both take the `else` branch: the collection is parsed
from the identifier's first `/`-segment and the bare identifier is the
bucket key. Only a non-empty collection string prefixes the
identifier. -/
def resolveFetch (ident : String) (collection : Option String) : String × String :=
  match collection with
  | some c => if c = "" then (ident, collectionOfKey ident) else (c ++ "/" ++ ident, c)
  | none => (ident, collectionOfKey ident)

/-- `Record._from_uuid(uuid, collection)` (lines 163-179): resolve the
bucket key and collection name (`resolveFetch`), read and parse the
stored document, unwrap its `record` field, and strip the reserved
keys. -/
def Record.fromUuid (s : Store) (ident : String) (collection : Option String) :
    Except FetchErr Record :=
  let kc := resolveFetch ident collection
  let key := kc.1
  let coll := kc.2
  match bucketGet s.bucket key with
  | none => .error .notFound
  | some content =>
    match content with
    | .obj fields =>
      match Dict.lookup fields "record" with
      | some (.obj j) => .ok (Record.ofEnvelope coll j)
      | some _ => .error .badDocument
      | none => .error .badDocument
    | _ => .error .badDocument

/-- Line 61-62 of `iter_search`: `if query is None: query = '*'`. The
query argument is `None` (absent) or a string. -/
def effectiveQuery : Option String → String
  | none => "*"
  | some q => q

/-- The search request `iter_search` sends to Elasticsearch (lines
64-79): the body's sort clause `[{"epoch": {"order": "desc"}}]` and term
query, the `es_`-prefixed query parameters built from the keyword
arguments plus `es_q`, and the target index (the collection name). -/
structure SearchRequest where
  sort : List (String × String)
  term : String
  params : Dict
  idx : String

/-- Build the request of `iter_search` for a query and keyword
arguments (the keyword-argument values are JSON-compatible). -/
def buildRequest (name : String) (query : Option String) (kwargs : Dict) : SearchRequest :=
  let q := effectiveQuery query
  { sort := [("epoch", "desc")],
    term := q,
    params := Dict.set (kwargs.foldl (fun d p => Dict.set d ("es_" ++ p.1) p.2) []) "es_q" (.str q),
    idx := name }

/-- The `epoch` field of an indexed document, as sorted on. Every
document this program indexes is a `Record.dict` and carries an integer
`epoch`; the default for other documents is immaterial here. -/
def docEpoch (d : Dict) : Int :=
  match d.lookup "epoch" with
  | some (.num n) => n
  | _ => 0

/-- Modelled from the spec: whether a document matches a free-text
query. The spec (§4.2, §6) fixes only the match-all token, which
matches every document; any other query is modelled as matching the
documents having some string field equal to it. -/
def esMatches (q : String) (d : Dict) : Bool :=
  q = "*" || d.any (fun p => match p.2 with | .str s => s = q | _ => false)

/-- Insert a hit into a list already sorted by `epoch` descending. -/
def insertByEpochDesc (x : String × Dict) : List (String × Dict) → List (String × Dict)
  | [] => [x]
  | y :: ys =>
    if docEpoch y.2 ≤ docEpoch x.2 then x :: y :: ys
    else y :: insertByEpochDesc x ys

/-- Sort hits by their `epoch` field, newest first. -/
def sortByEpochDesc : List (String × Dict) → List (String × Dict)
  | [] => []
  | x :: xs => insertByEpochDesc x (sortByEpochDesc xs)

/-- Modelled from the spec: the search-index adapter's query operation
(§6: an ordered sequence of hits for the index, honouring the sort
specification). The Elasticsearch service itself is an external
collaborator, not part of `src/`. With the request's default
`epoch`-descending sort clause and no `es_sort` override among the
parameters, the matching documents of the index come back newest first;
under an engine-specific override the order is left as unspecified
(modelled as insertion order). -/
def esSearch (s : Store) (req : SearchRequest) : List String :=
  let hits := s.esDocs.filterMap (fun p =>
    if p.1 = req.idx ∧ esMatches req.term p.2.2 then some (p.2.1, p.2.2) else none)
  let ordered :=
    if req.sort = [("epoch", "desc")] ∧ (Dict.lookup req.params "es_sort").isNone then
      sortByEpochDesc hits
    else hits
  ordered.map Prod.fst

/-- `Collection.iter_search` (lines 58-83): substitute the match-all
token for an absent query, build the request, run it against the index
named after the collection, and map each hit's identifier back to a
full Record via `Record._from_uuid(hit['_id'], collection=self.name)`
(one bucket fetch per hit). -/
def Collection.iterSearch (s : Store) (name : String) (query : Option String)
    (kwargs : Dict) : List (Except FetchErr Record) :=
  (esSearch s (buildRequest name query kwargs)).map
    (fun h => Record.fromUuid s h (some name))

/-- `Collection.search` (lines 85-93): fold the optional `sort` and
`size` arguments into the keyword arguments and materialize
`iter_search` as a list. -/
def Collection.search (s : Store) (name : String) (query : Option String)
    (sortArg sizeArg : Option JVal) (kwargs : Dict) : List (Except FetchErr Record) :=
  let kw1 := match sortArg with | some v => kwargs.set "sort" v | none => kwargs
  let kw2 := match sizeArg with | some v => kw1.set "size" v | none => kw1
  Collection.iterSearch s name query kw2

/-- `Collection.save` (lines 95-101): create the backing index,
treating `IndexAlreadyExistsError` as success. -/
def Collection.createIndex (s : Store) (name : String) : Store :=
  if name ∈ s.esIndexes then s else { s with esIndexes := name :: s.esIndexes }

/-- The body of the indexing loop of `seed` (lines 197-199): load the
Record at a bucket key (`_from_uuid` with no explicit collection, so
the collection is parsed from the key prefix) and write it to the
search index with `_index`. A malformed stored document raises,
stopping the command. -/
def seedStep (st : Store) (p : String × JVal) : Except FetchErr Store := do
  let r ← Record.fromUuid st p.1 none
  pure (r.indexES st)

/-- `seed` (lines 182-199), assembled from the passes described above:
derive the collection names, create the indexes, then run `seedStep`
over every bucket key. -/
def seed (s : Store) : Except FetchErr Store := do
  let names := (s.bucket.map (fun p => collectionOfKey p.1)).dedup
  let s1 := names.foldl (fun st n => Collection.createIndex st n) s
  s.bucket.foldlM seedStep s1

/-! ### Dictionary lemmas -/

theorem Dict.lookup_cons {p : String × JVal} {d : Dict} {k : String} :
    Dict.lookup (p :: d) k = if k = p.1 then some p.2 else Dict.lookup d k := by
  cases p with
  | mk k' v =>
    simp only [Dict.lookup, List.lookup]
    by_cases h : k = k'
    · simp [h]
    · simp [beq_false_of_ne h, h]

theorem Dict.hasKey_eq_false {d : Dict} {k : String} (h : Dict.lookup d k = none) :
    d.hasKey k = false := by
  induction d with
  | nil => rfl
  | cons p d ih =>
    rw [Dict.lookup_cons] at h
    by_cases hk : k = p.1
    · simp [hk] at h
    · simp only [if_neg hk] at h
      simp [Dict.hasKey, List.any] at *
      exact ⟨fun hp => hk hp.symm, ih h⟩

theorem Dict.lookup_append {d₁ d₂ : Dict} {k : String} (h : Dict.lookup d₁ k = none) :
    Dict.lookup (d₁ ++ d₂) k = Dict.lookup d₂ k := by
  induction d₁ with
  | nil => rfl
  | cons p d ih =>
    rw [Dict.lookup_cons] at h
    by_cases hk : k = p.1
    · simp [hk] at h
    · simp only [if_neg hk] at h
      rw [List.cons_append, Dict.lookup_cons, if_neg hk]
      exact ih h

theorem Dict.set_of_absent {d : Dict} {k : String} {v : JVal} (h : Dict.lookup d k = none) :
    Dict.set d k v = d ++ [(k, v)] := by
  simp [Dict.set, Dict.hasKey_eq_false h]

theorem Dict.filter_of_absent {d : Dict} {k : String} (h : Dict.lookup d k = none) :
    d.filter (fun p => p.1 ≠ k) = d := by
  induction d with
  | nil => rfl
  | cons p d ih =>
    rw [Dict.lookup_cons] at h
    by_cases hk : k = p.1
    · simp [hk] at h
    · simp only [if_neg hk] at h
      rw [List.filter_cons]
      simp only [ih h]
      have : (p.1 ≠ k) := fun hh => hk (hh.symm)
      simp [this]

theorem Dict.lookup_of_hasKey_false {d : Dict} {k : String} (h : d.hasKey k = false) :
    Dict.lookup d k = none := by
  induction d with
  | nil => rfl
  | cons p d ih =>
    simp only [Dict.hasKey, List.any_cons, Bool.or_eq_false_iff] at h
    rw [Dict.lookup_cons]
    have hk : k ≠ p.1 := by
      intro hh
      rw [hh] at h
      simp at h
    rw [if_neg hk]
    exact ih (by simp [Dict.hasKey, h.2])

theorem Dict.lookup_map_set_self {d : Dict} {k : String} {v : JVal}
    (h : d.hasKey k = true) :
    Dict.lookup (d.map (fun p => if p.1 = k then (k, v) else p)) k = some v := by
  induction d with
  | nil => simp [Dict.hasKey] at h
  | cons p d ih =>
    by_cases hp : p.1 = k
    · simp only [List.map_cons, if_pos hp]
      rw [Dict.lookup_cons]
      simp
    · simp only [List.map_cons, if_neg hp]
      rw [Dict.lookup_cons, if_neg (fun hh => hp hh.symm)]
      simp only [Dict.hasKey, List.any_cons, Bool.or_eq_true] at h
      rcases h with h | h
      · exact absurd (by simpa using h) hp
      · exact ih h

theorem Dict.lookup_map_set_ne {d : Dict} {k k' : String} {v : JVal} (h : k' ≠ k) :
    Dict.lookup (d.map (fun p => if p.1 = k then (k, v) else p)) k' = Dict.lookup d k' := by
  induction d with
  | nil => rfl
  | cons p d ih =>
    by_cases hp : p.1 = k
    · simp only [List.map_cons, if_pos hp]
      rw [Dict.lookup_cons, Dict.lookup_cons, if_neg h, if_neg (hp ▸ h)]
      exact ih
    · simp only [List.map_cons, if_neg hp]
      rw [Dict.lookup_cons, Dict.lookup_cons]
      by_cases hk : k' = p.1
      · simp [hk]
      · rw [if_neg hk, if_neg hk]
        exact ih

theorem Dict.lookup_set_self {d : Dict} {k : String} {v : JVal} :
    Dict.lookup (Dict.set d k v) k = some v := by
  unfold Dict.set
  by_cases h : d.hasKey k
  · rw [if_pos h]
    exact Dict.lookup_map_set_self h
  · rw [if_neg h]
    rw [Dict.lookup_append (Dict.lookup_of_hasKey_false (by simpa using h))]
    rw [Dict.lookup_cons]
    simp

theorem Dict.lookup_append_single_ne {d : Dict} {k k' : String} {v : JVal} (h : k' ≠ k) :
    Dict.lookup (d ++ [(k, v)]) k' = Dict.lookup d k' := by
  induction d with
  | nil =>
    rw [List.nil_append, Dict.lookup_cons, if_neg h]
  | cons p d ih =>
    rw [List.cons_append, Dict.lookup_cons, Dict.lookup_cons]
    by_cases hp : k' = p.1
    · simp [hp]
    · rw [if_neg hp, if_neg hp]
      exact ih

theorem Dict.lookup_set_ne {d : Dict} {k k' : String} {v : JVal} (h : k' ≠ k) :
    Dict.lookup (Dict.set d k v) k' = Dict.lookup d k' := by
  unfold Dict.set
  by_cases hk : d.hasKey k
  · rw [if_pos hk]
    exact Dict.lookup_map_set_ne h
  · rw [if_neg hk]
    exact Dict.lookup_append_single_ne h

theorem Dict.lookup_filter_self {d : Dict} {k : String} :
    Dict.lookup (d.filter (fun p => p.1 ≠ k)) k = none := by
  induction d with
  | nil => rfl
  | cons p d ih =>
    rw [List.filter_cons]
    by_cases hp : p.1 = k
    · rw [if_neg (by simp [hp])]
      exact ih
    · rw [if_pos (by simp [hp]), Dict.lookup_cons, if_neg (fun hh => hp hh.symm)]
      exact ih

theorem Dict.lookup_filter_ne {d : Dict} {k k' : String} (h : k' ≠ k) :
    Dict.lookup (d.filter (fun p => p.1 ≠ k)) k' = Dict.lookup d k' := by
  induction d with
  | nil => rfl
  | cons p d ih =>
    rw [List.filter_cons, Dict.lookup_cons]
    by_cases hp : p.1 = k
    · rw [if_neg (by simp [hp]), if_neg (fun hh : k' = p.1 => h (hh.trans hp))]
      exact ih
    · rw [if_pos (by simp [hp]), Dict.lookup_cons]
      by_cases hk : k' = p.1
      · simp [hk]
      · rw [if_neg hk, if_neg hk]
        exact ih

/-! ### Record serialization lemmas -/

theorem Record.dict_lookup_uuid (r : Record) :
    Dict.lookup r.dict "uuid" = some r.uuid := by
  unfold Record.dict
  rw [Dict.lookup_set_ne (by decide), Dict.lookup_set_self]

theorem Record.dict_lookup_epoch (r : Record) :
    Dict.lookup r.dict "epoch" = some r.epoch :=
  Dict.lookup_set_self

theorem Record.dict_lookup_payload (r : Record) {k : String}
    (h1 : k ≠ "uuid") (h2 : k ≠ "epoch") :
    Dict.lookup r.dict k = Dict.lookup r.data k := by
  unfold Record.dict
  rw [Dict.lookup_set_ne h2, Dict.lookup_set_ne h1]

theorem Record.dict_of_clean {r : Record}
    (hu : Dict.lookup r.data "uuid" = none) (he : Dict.lookup r.data "epoch" = none) :
    r.dict = r.data ++ [("uuid", r.uuid), ("epoch", r.epoch)] := by
  unfold Record.dict
  rw [Dict.set_of_absent hu]
  have hlu : Dict.lookup (r.data ++ [("uuid", r.uuid)]) "epoch" = none := by
    rw [Dict.lookup_append he, Dict.lookup_cons]
    simp [Dict.lookup]
  rw [Dict.set_of_absent hlu, List.append_assoc]
  rfl

theorem Record.ofEnvelope_dict {r : Record} {c : String}
    (hu : Dict.lookup r.data "uuid" = none) (he : Dict.lookup r.data "epoch" = none) :
    Record.ofEnvelope c r.dict =
      { uuid := r.uuid, data := r.data, epoch := r.epoch, collection_name := some c } := by
  rw [Record.dict_of_clean hu he]
  have h1 : Dict.lookup (r.data ++ [("uuid", r.uuid), ("epoch", r.epoch)]) "uuid"
      = some r.uuid := by
    rw [Dict.lookup_append hu, Dict.lookup_cons, if_pos rfl]
  have h2 : (r.data ++ [("uuid", r.uuid), ("epoch", r.epoch)]).filter
      (fun p => p.1 ≠ "uuid") = r.data ++ [("epoch", r.epoch)] := by
    rw [List.filter_append, Dict.filter_of_absent hu]
    simp
  have h3 : Dict.lookup (r.data ++ [("epoch", r.epoch)]) "epoch" = some r.epoch := by
    rw [Dict.lookup_append he, Dict.lookup_cons, if_pos rfl]
  have h4 : (r.data ++ [("epoch", r.epoch)]).filter (fun p => p.1 ≠ "epoch")
      = r.data := by
    rw [List.filter_append, Dict.filter_of_absent he]
    simp
  simp only [Record.ofEnvelope, Dict.pop, h1, h2, h3, h4, Option.getD_some]

/-! ### Store lemmas -/

theorem bucketGet_put_self {b : List (String × JVal)} {k : String} {v : JVal} :
    bucketGet (bucketPut b k v) k = some v := by
  show Dict.lookup ((k, v) :: b.filter (fun p => p.1 ≠ k)) k = some v
  rw [Dict.lookup_cons, if_pos rfl]

theorem bucketGet_put_ne {b : List (String × JVal)} {k k' : String} {v : JVal}
    (h : k' ≠ k) :
    bucketGet (bucketPut b k v) k' = bucketGet b k' := by
  show Dict.lookup ((k, v) :: b.filter (fun p => p.1 ≠ k)) k' = Dict.lookup b k'
  rw [Dict.lookup_cons, if_neg h]
  exact Dict.lookup_filter_ne h

theorem bucketGet_deleteKey_self {b : List (String × JVal)} {k : String} :
    bucketGet (bucketDeleteKey b k) k = none :=
  Dict.lookup_filter_self

theorem esGetDoc_put_self {docs : List (String × String × Dict)} {idx i : String}
    {doc : Dict} :
    esGetDoc (esPutDoc docs idx i doc) idx i = some doc := by
  unfold esGetDoc esPutDoc
  rw [List.find?_cons_of_pos _ (by simp)]
  rfl

/-! ### Fetch key-resolution lemmas -/

theorem resolveFetch_some_ne {ident c : String} (h : c ≠ "") :
    resolveFetch ident (some c) = (c ++ "/" ++ ident, c) := by
  show (if c = "" then (ident, collectionOfKey ident) else (c ++ "/" ++ ident, c))
    = (c ++ "/" ++ ident, c)
  rw [if_neg h]

theorem resolveFetch_falsy (ident : String) :
    resolveFetch ident (some "") = resolveFetch ident none := rfl

/-! ### C1 -/

/-- C1: For every Record, the serialized form `Record.dict` is the
payload merged with the reserved identifier and `epoch` fields (the
spec's `id` field is realised as the `uuid` key): the identifier and
timestamp are found under the reserved keys and every other key holds
exactly its payload value. This map is the document `_index` writes to
the search index, and (inside the `record` envelope) the content
`_persist` writes to the blob store under the key
`{collection_name}/{uuid}`. -/
theorem record_serialized_form (r : Record) (s : Store) :
    Dict.lookup r.dict "uuid" = some r.uuid ∧
    Dict.lookup r.dict "epoch" = some r.epoch ∧
    (∀ k, k ≠ "uuid" → k ≠ "epoch" → Dict.lookup r.dict k = Dict.lookup r.data k) ∧
    esGetDoc (r.indexES s).esDocs (pyStrOfOpt r.collection_name) r.uuid.pyStr
      = some r.dict ∧
    bucketGet (r.persist s).bucket (pyStrOfOpt r.collection_name ++ "/" ++ r.uuid.pyStr)
      = some (.obj [("record", .obj r.dict)]) := by
  refine ⟨r.dict_lookup_uuid, r.dict_lookup_epoch,
    fun k h1 h2 => r.dict_lookup_payload h1 h2, ?_, ?_⟩
  · exact esGetDoc_put_self
  · exact bucketGet_put_self

theorem record_serialized_form_witness :
    Dict.lookup (Record.mk (.str "u1") [("color", .str "red")] (.num 5)
      (some "widgets")).dict "color" = some (.str "red") :=
  (record_serialized_form
    (Record.mk (.str "u1") [("color", .str "red")] (.num 5) (some "widgets"))
    ⟨[], [], []⟩).2.2.1 "color" (by decide) (by decide)

/-! ### C2 -/

/-- C2: within a single `save()`, the blob-store write (`_persist`)
comes strictly before the index write (`_index`) in the issued
operation sequence; and when the blob-store write fails, running the
save stops there: no operation is performed, the external state (in
particular the search index) is untouched, and the save reports
failure. -/
theorem save_blob_write_precedes_index_write (r : Record) (now : Int)
    (fails : Op → Bool) (s : Store) :
    (∃ k c i j d, r.saveOps now = [.blobPut k c, .esIndexDoc i j d]) ∧
    (fails (.blobPut (r.refreshed now).persistKey (r.refreshed now).json) = true →
      runOps fails s (r.saveOps now) = (s, [], false)) := by
  constructor
  · exact ⟨_, _, _, _, _, rfl⟩
  · intro h
    simp [Record.saveOps, runOps, h]

theorem save_blob_write_precedes_index_write_witness :
    runOps (fun op => match op with | .blobPut _ _ => true | _ => false)
      ⟨[], [], []⟩ ((Record.mk (.str "u1") [] (.num 0) (some "c")).saveOps 7)
      = (⟨[], [], []⟩, [], false) :=
  (save_blob_write_precedes_index_write
    (Record.mk (.str "u1") [] (.num 0) (some "c")) 7
    (fun op => match op with | .blobPut _ _ => true | _ => false)
    ⟨[], [], []⟩).2 rfl

/-! ### C3 -/

/-- C3: for every payload map containing neither reserved key (`uuid`,
`epoch`), serializing a Record carrying that payload via `Record.dict`
and then rebuilding a Record from the serialized map (the
reserved-key-stripping step of `_from_uuid`) gives back exactly the
original payload. -/
theorem roundtrip_strips_reserved_exactly (r : Record) (c : String)
    (hu : Dict.lookup r.data "uuid" = none)
    (he : Dict.lookup r.data "epoch" = none) :
    (Record.ofEnvelope c r.dict).data = r.data := by
  rw [Record.ofEnvelope_dict hu he]

theorem roundtrip_strips_reserved_exactly_witness :
    (Record.ofEnvelope "orders"
      (Record.mk (.str "u1") [("color", .str "red"), ("size", .num 2)] (.num 9)
        (some "orders")).dict).data = [("color", .str "red"), ("size", .num 2)] :=
  roundtrip_strips_reserved_exactly
    (Record.mk (.str "u1") [("color", .str "red"), ("size", .num 2)] (.num 9)
      (some "orders")) "orders" rfl rfl

/-! ### C4 -/

/-- C4 counterexample: a Record whose payload itself uses the reserved
key `uuid` does not round-trip through save and fetch: saving payload
`{"uuid": "x"}` and fetching the record back yields an empty payload
(the reserved field overwrote it), not the saved payload. -/
theorem save_fetch_data_counterexample :
    (Record.fromUuid
        ((Record.mk (.str "u1") [("uuid", .str "x")] (.num 0) (some "c")).save 5
          ⟨[], [], []⟩).2 "u1" (some "c")).map Record.data = .ok [] ∧
    ([] : Dict) ≠ [("uuid", JVal.str "x")] := by
  constructor
  · rfl
  · intro h
    cases h

/-- C4 (amended): for every Record bound to a non-empty collection name
whose payload contains neither reserved key (`uuid`, `epoch`), saving
it at current time `now` and immediately fetching it by its identifier
from the blob store returns a Record with the very same payload and
with timestamp `now`, which is ≥ any time `t0` observed before the save
(the clock being monotone, `t0 ≤ now`). (An empty collection name is
falsy on line 165, so the fetch would probe the bare identifier rather
than the persisted key.) -/
theorem save_then_fetch (r : Record) (c u : String) (t0 now : Int) (s : Store)
    (hc : r.collection_name = some c) (hu : r.uuid = .str u)
    (hcne : c ≠ "")
    (hdu : Dict.lookup r.data "uuid" = none)
    (hde : Dict.lookup r.data "epoch" = none)
    (ht : t0 ≤ now) :
    Record.fromUuid (r.save now s).2 u (some c)
      = .ok { uuid := .str u, data := r.data, epoch := .num now,
              collection_name := some c } ∧
    t0 ≤ now := by
  obtain ⟨ru, rd, re, rc⟩ := r
  simp only at hc hu hdu hde
  subst hc
  subst hu
  refine ⟨?_, ht⟩
  show Record.fromUuid _ u (some c) = _
  simp only [Record.save, Record.saveOps, Record.refreshed, List.foldl, applyOp]
  unfold Record.fromUuid
  simp only [resolveFetch_some_ne hcne, Record.persistKey, JVal.pyStr, pyStrOfOpt]
  rw [bucketGet_put_self]
  simp only [Record.json]
  rw [show Dict.lookup [("record",
      JVal.obj (Record.mk (.str u) rd (.num now) (some c)).dict)] "record"
    = some (JVal.obj (Record.mk (.str u) rd (.num now) (some c)).dict) from by
      rw [Dict.lookup_cons, if_pos rfl]]
  show Except.ok (Record.ofEnvelope c (Record.mk (.str u) rd (.num now) (some c)).dict)
    = _
  rw [Record.ofEnvelope_dict hdu hde]

theorem save_then_fetch_witness :
    Record.fromUuid
      ((Record.mk (.str "u1") [("color", .str "red")] (.num 0) (some "c")).save 5
        ⟨[], [], []⟩).2 "u1" (some "c")
      = .ok { uuid := .str "u1", data := [("color", .str "red")], epoch := .num 5,
              collection_name := some "c" } :=
  (save_then_fetch (Record.mk (.str "u1") [("color", .str "red")] (.num 0) (some "c"))
    "c" "u1" 3 5 ⟨[], [], []⟩ rfl rfl (by decide) rfl rfl (by decide)).1

/-! ### C5 -/

/-- C5: fetching by an identifier whose resolved blob-store key is
absent fails with NotFound — for every call shape (`resolveFetch`
covers the explicit non-empty collection, the falsy empty-string
collection and the bare `{collection}/{id}` identifier), and in
particular for the identifier of a Record (with its non-empty
collection name supplied, so the probe hits the key `delete` just
removed from the bucket). -/
theorem fetch_absent_key_notFound (s : Store) (ident c u : String) (r : Record)
    (coll : Option String)
    (hmiss : bucketGet s.bucket (resolveFetch ident coll).1 = none)
    (hcne : c ≠ "")
    (hc : r.collection_name = some c) (hu : r.uuid = .str u) :
    Record.fromUuid s ident coll = .error .notFound ∧
    Record.fromUuid (r.delete s) u (some c) = .error .notFound := by
  obtain ⟨ru, rd, re, rc⟩ := r
  simp only at hc hu
  subst hc
  subst hu
  constructor
  · unfold Record.fromUuid
    simp only [hmiss]
  · unfold Record.fromUuid
    simp only [resolveFetch_some_ne hcne]
    have hdel : bucketGet ((Record.mk (JVal.str u) rd re (some c)).delete s).bucket
        (c ++ "/" ++ u) = none := bucketGet_deleteKey_self
    simp only [hdel]

theorem fetch_absent_key_notFound_witness :
    Record.fromUuid ⟨[], [], []⟩ "abc" (some "orders") = .error .notFound :=
  (fetch_absent_key_notFound ⟨[], [], []⟩ "abc" "orders" "abc"
    (Record.mk (.str "abc") [] (.num 0) (some "orders")) (some "orders")
    rfl (by decide) rfl rfl).1

/-! ### C9 -/

/-- C9: the JSON document `_persist` writes for a Record is the
serialized map wrapped in a top-level `record` envelope; `_from_uuid`
unwraps exactly that field, so, for a Record with a non-empty
collection name (an empty one is falsy on line 165 and would make the
fetch probe the bare identifier instead of the persisted key), persist
followed by fetch composes through the envelope — and a stored object
without a `record` field fails to load. -/
theorem persist_fetch_compose_through_envelope (r : Record) (c u : String) (s : Store)
    (hc : r.collection_name = some c) (hu : r.uuid = .str u) (hcne : c ≠ "") :
    r.json = .obj [("record", .obj r.dict)] ∧
    Record.fromUuid (r.persist s) u (some c) = .ok (Record.ofEnvelope c r.dict) ∧
    (∀ (s' : Store) (fields : Dict),
      bucketGet s'.bucket (c ++ "/" ++ u) = some (.obj fields) →
      Dict.lookup fields "record" = none →
      Record.fromUuid s' u (some c) = .error .badDocument) := by
  obtain ⟨ru, rd, re, rc⟩ := r
  simp only at hc hu
  subst hc
  subst hu
  refine ⟨rfl, ?_, ?_⟩
  · unfold Record.fromUuid
    have hget : bucketGet ((Record.mk (JVal.str u) rd re (some c)).persist s).bucket
        (c ++ "/" ++ u)
        = some (Record.mk (JVal.str u) rd re (some c)).json := bucketGet_put_self
    simp only [resolveFetch_some_ne hcne, hget, Record.json]
    rw [show Dict.lookup [("record",
        JVal.obj (Record.mk (JVal.str u) rd re (some c)).dict)] "record"
      = some (JVal.obj (Record.mk (JVal.str u) rd re (some c)).dict) from by
        rw [Dict.lookup_cons, if_pos rfl]]
  · intro s' fields hget hrec
    unfold Record.fromUuid
    simp only [resolveFetch_some_ne hcne, hget, hrec]

theorem persist_fetch_compose_through_envelope_witness :
    Record.fromUuid
      ((Record.mk (.str "u1") [("a", .num 1)] (.num 3) (some "c")).persist
        ⟨[], [], []⟩) "u1" (some "c")
      = .ok (Record.ofEnvelope "c"
          (Record.mk (.str "u1") [("a", .num 1)] (.num 3) (some "c")).dict) :=
  (persist_fetch_compose_through_envelope
    (Record.mk (.str "u1") [("a", .num 1)] (.num 3) (some "c")) "c" "u1"
    ⟨[], [], []⟩ rfl rfl (by decide)).2.1

/-! ### C10 -/

/-- C10: a stored blob document whose inner `record` object lacks the
reserved `uuid` (resp. `epoch`) field still loads without failing,
whatever the call shape (the document sits at the key the fetch
resolves, non-empty collection, empty-string collection or bare
identifier alike): `_from_uuid` returns a Record whose identifier
(resp. timestamp) is the None value, and the remaining non-reserved
fields form the payload unchanged. -/
theorem fetch_tolerates_missing_reserved (s : Store) (u : String)
    (coll : Option String) (fields j : Dict)
    (hget : bucketGet s.bucket (resolveFetch u coll).1 = some (.obj fields))
    (hrec : Dict.lookup fields "record" = some (.obj j)) :
    Record.fromUuid s u coll = .ok (Record.ofEnvelope (resolveFetch u coll).2 j) ∧
    (Dict.lookup j "uuid" = none →
      (Record.ofEnvelope (resolveFetch u coll).2 j).uuid = .null) ∧
    (Dict.lookup j "epoch" = none →
      (Record.ofEnvelope (resolveFetch u coll).2 j).epoch = .null) ∧
    (∀ k, k ≠ "uuid" → k ≠ "epoch" →
      Dict.lookup (Record.ofEnvelope (resolveFetch u coll).2 j).data k
        = Dict.lookup j k) := by
  refine ⟨?_, ?_, ?_, ?_⟩
  · unfold Record.fromUuid
    simp only [hget, hrec]
  · intro hu
    simp only [Record.ofEnvelope, Dict.pop, hu, Option.getD_none]
  · intro he
    have : Dict.lookup (j.filter (fun p => p.1 ≠ "uuid")) "epoch" = none := by
      rw [Dict.lookup_filter_ne (by decide)]
      exact he
    simp only [Record.ofEnvelope, Dict.pop, this, Option.getD_none]
  · intro k h1 h2
    simp only [Record.ofEnvelope, Dict.pop]
    rw [Dict.lookup_filter_ne h2, Dict.lookup_filter_ne h1]

theorem fetch_tolerates_missing_reserved_witness :
    Record.fromUuid
      ⟨[("c/u1", .obj [("record", .obj [("color", .str "red")])])], [], []⟩
      "u1" (some "c")
      = .ok (Record.ofEnvelope "c" [("color", .str "red")]) ∧
    (Record.ofEnvelope "c" [("color", .str "red")]).uuid = .null :=
  have h := fetch_tolerates_missing_reserved
    ⟨[("c/u1", .obj [("record", .obj [("color", .str "red")])])], [], []⟩
    "u1" (some "c") [("record", .obj [("color", .str "red")])] [("color", .str "red")]
    (by rw [show (resolveFetch "u1" (some "c")).1 = "c/u1" from rfl]; rfl) rfl
  ⟨h.1, h.2.1 rfl⟩

/-! ### C6 -/

/-- C6 counterexample: `iter_search` substitutes the match-all token
only when the query `is None`; an invocation with the empty-string
query keeps `""` as both the body term and the `es_q` parameter, so the
match-all token is not substituted for an empty query. -/
theorem matchall_empty_query_counterexample :
    (buildRequest "c" (some "") []).term = "" ∧
    Dict.lookup (buildRequest "c" (some "") []).params "es_q" = some (.str "") ∧
    ("" : String) ≠ "*" := by
  refine ⟨rfl, rfl, by decide⟩

/-- C6 (amended): the match-all token is substituted as the query, both
in the request body and as the `es_q` parameter, exactly when the query
argument is absent (None); any string query — the empty string
included — is forwarded unchanged. -/
theorem matchall_substituted_when_absent (name : String) (kwargs : Dict) :
    (buildRequest name none kwargs).term = "*" ∧
    Dict.lookup (buildRequest name none kwargs).params "es_q" = some (.str "*") ∧
    (∀ q : String, (buildRequest name (some q) kwargs).term = q) := by
  refine ⟨rfl, ?_, fun q => rfl⟩
  exact Dict.lookup_set_self

/-! ### C7 -/

/-- C7: every search request carries the default sort clause `epoch`
descending; `iter_search` maps each hit identifier back to a full
Record via `_from_uuid` with the collection name; and a default search
(match-all, no sort override) over an index holding three records with
timestamps `t1 < t2 < t3` returns them newest first. -/
theorem search_newest_first :
    (∀ (name : String) (query : Option String) (kwargs : Dict),
      (buildRequest name query kwargs).sort = [("epoch", "desc")]) ∧
    (∀ (s : Store) (name : String) (query : Option String) (kwargs : Dict),
      Collection.iterSearch s name query kwargs
        = (esSearch s (buildRequest name query kwargs)).map
            (fun h => Record.fromUuid s h (some name))) ∧
    (∀ (s : Store) (name id1 id2 id3 : String) (d1 d2 d3 : Dict) (t1 t2 t3 : Int),
      t1 < t2 → t2 < t3 →
      docEpoch d1 = t1 → docEpoch d2 = t2 → docEpoch d3 = t3 →
      s.esDocs = [(name, id1, d1), (name, id2, d2), (name, id3, d3)] →
      Collection.search s name none none none []
        = [Record.fromUuid s id3 (some name), Record.fromUuid s id2 (some name),
           Record.fromUuid s id1 (some name)]) := by
  refine ⟨fun name query kwargs => rfl, fun s name query kwargs => rfl, ?_⟩
  intro s name id1 id2 id3 d1 d2 d3 t1 t2 t3 h12 h23 he1 he2 he3 hdocs
  have h32 : ¬(docEpoch d3 ≤ docEpoch d2) := by
    rw [he2, he3]
    omega
  have h31 : ¬(docEpoch d3 ≤ docEpoch d1) := by
    rw [he1, he3]
    omega
  have h21 : ¬(docEpoch d2 ≤ docEpoch d1) := by
    rw [he1, he2]
    omega
  have hs : esSearch s (buildRequest name none []) = [id3, id2, id1] := by
    have hmatch : ∀ d : Dict, esMatches "*" d = true := by
      intro d
      unfold esMatches
      simp
    unfold esSearch
    rw [hdocs]
    rw [show (buildRequest name none []).term = "*" from rfl,
        show (buildRequest name none []).idx = name from rfl,
        show (buildRequest name none []).sort = [("epoch", "desc")] from rfl,
        show Dict.lookup (buildRequest name none []).params "es_sort" = none from rfl]
    simp only [hmatch, List.filterMap_cons, List.filterMap_nil, Option.isNone_none,
      eq_self_iff_true, and_self, and_true, true_and, if_true]
    simp [sortByEpochDesc, insertByEpochDesc, h32, h31, h21]
  show Collection.iterSearch s name none [] = _
  unfold Collection.iterSearch
  rw [hs]
  rfl

theorem search_newest_first_witness :
    Collection.search
      ⟨[], [("c", "a", [("epoch", .num 1)]), ("c", "b", [("epoch", .num 2)]),
        ("c", "x", [("epoch", .num 3)])], []⟩ "c" none none none []
      = [Record.fromUuid ⟨[], [("c", "a", [("epoch", .num 1)]),
            ("c", "b", [("epoch", .num 2)]), ("c", "x", [("epoch", .num 3)])], []⟩
            "x" (some "c"),
         Record.fromUuid ⟨[], [("c", "a", [("epoch", .num 1)]),
            ("c", "b", [("epoch", .num 2)]), ("c", "x", [("epoch", .num 3)])], []⟩
            "b" (some "c"),
         Record.fromUuid ⟨[], [("c", "a", [("epoch", .num 1)]),
            ("c", "b", [("epoch", .num 2)]), ("c", "x", [("epoch", .num 3)])], []⟩
            "a" (some "c")] :=
  search_newest_first.2.2
    ⟨[], [("c", "a", [("epoch", .num 1)]), ("c", "b", [("epoch", .num 2)]),
      ("c", "x", [("epoch", .num 3)])], []⟩
    "c" "a" "b" "x" [("epoch", .num 1)] [("epoch", .num 2)] [("epoch", .num 3)]
    1 2 3 (by decide) (by decide) rfl rfl rfl rfl

/-! ### C8 -/

theorem except_bind_ok {ε α β : Type} {x : Except ε α} {g : α → Except ε β} {v : β}
    (h : (x >>= g) = .ok v) : ∃ w, x = .ok w ∧ g w = .ok v := by
  cases x with
  | error e => exact absurd h (by simp [Bind.bind, Except.bind])
  | ok w => exact ⟨w, rfl, by simpa [Bind.bind, Except.bind] using h⟩

theorem fromUuid_congr_bucket {s₁ s₂ : Store} (h : s₁.bucket = s₂.bucket)
    (ident : String) (coll : Option String) :
    Record.fromUuid s₁ ident coll = Record.fromUuid s₂ ident coll := by
  unfold Record.fromUuid
  rw [h]

theorem isSomeOfMap {α β : Type} (f : α → β) (o : Option α) :
    (o.map f).isSome = o.isSome := by
  cases o <;> rfl

theorem esGetDoc_put_isSome {docs : List (String × String × Dict)}
    {idx i idx' i' : String} {doc : Dict}
    (h : (esGetDoc docs idx i).isSome = true) :
    (esGetDoc (esPutDoc docs idx' i' doc) idx i).isSome = true := by
  by_cases hii : idx = idx' ∧ i = i'
  · obtain ⟨h1, h2⟩ := hii
    subst h1
    subst h2
    rw [esGetDoc_put_self]
    rfl
  · unfold esGetDoc at h ⊢
    rw [isSomeOfMap] at h ⊢
    obtain ⟨x, hx, hpx⟩ := List.find?_isSome.mp h
    apply List.find?_isSome.mpr
    refine ⟨x, ?_, hpx⟩
    unfold esPutDoc
    apply List.mem_cons_of_mem
    apply List.mem_filter.mpr
    refine ⟨hx, ?_⟩
    simp only [decide_eq_true_eq] at hpx
    simp only [decide_eq_true_eq]
    intro hcontra
    exact hii ⟨hpx.1 ▸ hcontra.1, hpx.2 ▸ hcontra.2⟩

theorem seedFold_invariant (keys : List (String × JVal)) :
    ∀ (st st' : Store), keys.foldlM seedStep st = .ok st' →
    st'.bucket = st.bucket ∧
    (∀ idx i, (esGetDoc st.esDocs idx i).isSome = true →
      (esGetDoc st'.esDocs idx i).isSome = true) ∧
    (∀ kv ∈ keys, ∃ r : Record, Record.fromUuid st kv.1 none = .ok r ∧
      (esGetDoc st'.esDocs (pyStrOfOpt r.collection_name) r.uuid.pyStr).isSome
        = true) := by
  induction keys with
  | nil =>
    intro st st' h
    rw [List.foldlM_nil] at h
    have hst : st = st' := Except.ok.inj h
    subst hst
    exact ⟨rfl, fun idx i hi => hi, fun kv hkv => absurd hkv (List.not_mem_nil kv)⟩
  | cons p keys ih =>
    intro st st' h
    rw [List.foldlM_cons] at h
    obtain ⟨st1, hstep, hrest⟩ := except_bind_ok h
    unfold seedStep at hstep
    obtain ⟨r, hr, hok⟩ := except_bind_ok hstep
    have hst1 : st1 = r.indexES st := (Except.ok.inj hok).symm
    subst hst1
    obtain ⟨hb, hmono, hmem⟩ := ih (r.indexES st) st' hrest
    refine ⟨hb, ?_, ?_⟩
    · intro idx i hi
      exact hmono idx i (esGetDoc_put_isSome hi)
    · intro kv hkv
      rcases List.mem_cons.mp hkv with heq | hmem2
      · subst heq
        refine ⟨r, hr, ?_⟩
        apply hmono
        show (esGetDoc (esPutDoc st.esDocs _ _ _) _ _).isSome = true
        rw [esGetDoc_put_self]
        rfl
      · obtain ⟨r2, hr2, hd2⟩ := hmem kv hmem2
        exact ⟨r2, (fromUuid_congr_bucket (rfl : st.bucket
          = (r.indexES st).bucket) kv.1 none).trans hr2, hd2⟩

theorem createIndexFold_preserves (names : List String) :
    ∀ st : Store,
    ((names.foldl (fun a n => Collection.createIndex a n) st).bucket = st.bucket) ∧
    ((names.foldl (fun a n => Collection.createIndex a n) st).esDocs = st.esDocs) := by
  induction names with
  | nil => exact fun st => ⟨rfl, rfl⟩
  | cons n names ih =>
    intro st
    rw [List.foldl_cons]
    have h := ih (Collection.createIndex st n)
    have hci : (Collection.createIndex st n).bucket = st.bucket
        ∧ (Collection.createIndex st n).esDocs = st.esDocs := by
      unfold Collection.createIndex
      split <;> exact ⟨rfl, rfl⟩
    exact ⟨h.1.trans hci.1, h.2.trans hci.2⟩

/-- C8: when `seed` succeeds, the blob store is untouched (the final
bucket equals the initial bucket — `seed` performs no blob-store
write), every bucket key was loaded as a Record, and each loaded record
was re-indexed: the final search index holds a document under that
record's collection name and identifier. -/
theorem seed_reindexes_without_blob_writes (s s' : Store) (hok : seed s = .ok s') :
    s'.bucket = s.bucket ∧
    (∀ kv ∈ s.bucket, ∃ r : Record,
      Record.fromUuid s kv.1 none = .ok r ∧
      (esGetDoc s'.esDocs (pyStrOfOpt r.collection_name) r.uuid.pyStr).isSome
        = true) := by
  unfold seed at hok
  obtain ⟨hb, hmono, hmem⟩ := seedFold_invariant s.bucket _ s' hok
  have hpres := createIndexFold_preserves
    ((s.bucket.map (fun p => collectionOfKey p.1)).dedup) s
  refine ⟨by rw [hb, hpres.1], ?_⟩
  intro kv hkv
  obtain ⟨r, hr, hd⟩ := hmem kv hkv
  exact ⟨r, (fromUuid_congr_bucket hpres.1.symm kv.1 none).trans hr, hd⟩

theorem seed_reindexes_without_blob_writes_witness :
    (⟨[("c/u1", .obj [("record", .obj [("uuid", .str "u1"), ("epoch", .num 1)])])],
        [("c", "u1", [("uuid", .str "u1"), ("epoch", .num 1)])], ["c"]⟩ : Store).bucket
      = [("c/u1", JVal.obj [("record", .obj [("uuid", .str "u1"), ("epoch", .num 1)])])] :=
  (seed_reindexes_without_blob_writes
    ⟨[("c/u1", .obj [("record", .obj [("uuid", .str "u1"), ("epoch", .num 1)])])], [], []⟩
    ⟨[("c/u1", .obj [("record", .obj [("uuid", .str "u1"), ("epoch", .num 1)])])],
      [("c", "u1", [("uuid", .str "u1"), ("epoch", .num 1)])], ["c"]⟩
    rfl).1
